import Mathlib

/-
Verification of the figure-handling layer of gmt-python (src/gmt/figure.py)
against its natural-language specification.

The module is embedded shallowly:
  * calls into the native GMT engine, spawned processes and browser launches
    are recorded as an explicit trace of `Event`s;
  * Python `assert` failures become `Except.error`;
  * `os.path.splitext` and `os.path.join` are modelled over `List Char`
    following their documented POSIX semantics;
  * repository code that is not under src/ (the argument decorators
    `use_alias` and `kwargs_to_strings`, `utils.build_arg_string`) and the
    stdlib temporary-file primitive are modelled from the spec, each marked
    `Modelled from the spec:` in its doc comment.
-/

namespace GmtPython

/-- Python values that appear as keyword-argument values in this layer:
strings, integers and booleans. -/
inductive Val where
  | str (s : String)
  | int (n : Int)
  | bool (b : Bool)
deriving DecidableEq

/-- A Python keyword-argument mapping (dict), as an insertion-ordered
association list with distinct keys. -/
abbrev Kwargs := List (String × Val)

/-- First-match association-list lookup: the model of Python dict indexing. -/
def alookup {β : Type} (k : String) : List (String × β) → Option β
  | [] => none
  | (k2, v) :: rest => if k = k2 then some v else alookup k rest

/-- Model of the Python `k in dict` key-membership test. -/
def hasKey (kwargs : Kwargs) (k : String) : Bool :=
  (alookup k kwargs).isSome

/-- Observable effects of the layer.
`callModule m a` is `LibGMT.call_module(m, a)`.
`runProcess argv stdoutDevnull stderrDevnull waits checkRaises` is a
`subprocess.run(argv, ...)` call: the two Devnull flags record whether the
stream was redirected to `subprocess.DEVNULL`; `waits` records that the
primitive blocks until the child exits (true for `subprocess.run`);
`checkRaises` records whether `check=True` was passed (so that a nonzero
exit status would raise).
`openNewTab u` is `webbrowser.open_new_tab(u)`. -/
inductive Event where
  | callModule (module : String) (args : String)
  | runProcess (argv : List String)
      (stdoutDevnull stderrDevnull waits checkRaises : Bool)
  | openNewTab (url : String)
deriving DecidableEq

/-- The value of `sys.platform` as far as this layer inspects it. -/
inductive Platform where
  | linux
  | darwin
  | other
deriving DecidableEq

/-- Split a character list at the last occurrence of `c`:
`some (pre, post)` with the list equal to `pre ++ c :: post` and `c ∉ post`,
or `none` when `c` does not occur. -/
def splitLast (c : Char) : List Char → Option (List Char × List Char)
  | [] => none
  | x :: xs =>
    match splitLast c xs with
    | some (pre, post) => some (x :: pre, post)
    | none => if x = c then some ([], xs) else none

/-- Model of POSIX `os.path.splitext`: split off the extension at the last
dot of the final path component, unless that component consists only of
leading dots before it (so `.bashrc` has no extension). -/
def splitext (p : String) : String × String :=
  match splitLast '/' p.data with
  | some (d, b) =>
    match splitLast '.' b with
    | some (pre, post) =>
      if pre.any (fun ch => ch != '.') then
        (String.mk (d ++ '/' :: pre), String.mk ('.' :: post))
      else (p, "")
    | none => (p, "")
  | none =>
    match splitLast '.' p.data with
    | some (pre, post) =>
      if pre.any (fun ch => ch != '.') then
        (String.mk pre, String.mk ('.' :: post))
      else (p, "")
    | none => (p, "")

/-- Model of the Python slice `s[1:]` for the ASCII strings this layer
handles. -/
def strTail (s : String) : String :=
  String.mk (s.data.drop 1)

/-- Model of Python `str.upper()` for the ASCII strings this layer handles. -/
def strUpper (s : String) : String :=
  String.mk (s.data.map Char.toUpper)

/-- Model of POSIX `os.path.join` for two components: an absolute second
component wins; otherwise a `/` separator is inserted unless the first
component is empty or already ends with `/`. -/
def path_join (a b : String) : String :=
  if b.data.head? = some '/' then b
  else if a.data = [] then b
  else if a.data.getLast? = some '/' then String.mk (a.data ++ b.data)
  else String.mk (a.data ++ '/' :: b.data)

/-- A well-formed figure name as produced by the temp-file allocator:
nonempty, with no path separator and no dot. -/
def goodName (s : String) : Prop :=
  s.data ≠ [] ∧ '/' ∉ s.data ∧ '.' ∉ s.data

instance (s : String) : Decidable (goodName s) := by
  unfold goodName
  infer_instance

/-- Rendering of a keyword value into the native option string, as Python
`'{}'.format(value)` would produce it. -/
def Val.toArgString : Val → String
  | .str s => s
  | .int n => toString n
  | .bool b => if b then "True" else "False"

/-- Modelled from the spec: `utils.build_arg_string` (not under src/)
serializes the option mapping into the engine option-string syntax, one
`-<flag><value>` token per entry, joined by spaces. -/
def build_arg_string (kwargs : Kwargs) : String :=
  String.intercalate " " (kwargs.map (fun p => "-" ++ p.1 ++ p.2.toArgString))

/-- The alias table of the `use_alias` decorator application on
`Figure.psconvert` in src/gmt/figure.py:
`F='prefix', T='fmt', A='crop', E='dpi', P='portrait'`,
stored here as long-name to single-letter-flag pairs. -/
def psconvert_aliases : List (String × String) :=
  [("prefix", "F"), ("fmt", "T"), ("crop", "A"), ("dpi", "E"), ("portrait", "P")]

/-- Modelled from the spec: the `use_alias` decorator mechanism (not under
src/) renames friendly long keyword names to the engine single-letter flags,
preserving order; keys that are not aliases pass through unchanged. -/
def use_alias (kwargs : Kwargs) : Kwargs :=
  kwargs.map (fun p =>
    match alookup p.1 psconvert_aliases with
    | some short => (short, p.2)
    | none => p)

/-- Modelled from the spec: the `kwargs_to_strings` decorator (not under
src/) renders values into option-flag strings; a boolean maps to flag
presence (`True` becomes an empty-valued flag, `False` removes the flag). -/
def remove_bools : Kwargs → Kwargs
  | [] => []
  | (k, Val.bool b) :: rest =>
    if b then (k, Val.str "") :: remove_bools rest else remove_bools rest
  | (k, v) :: rest => (k, v) :: remove_bools rest

/-- The module-level `figure(name)` function: selects `name` as the active
figure in the native engine. Passing format `'-'` tells `gmt.end` not to
produce any files; the argument string is `'{} {}'.format(name, fmt)`. -/
def figure (name : String) : List Event :=
  [Event.callModule "figure" (name ++ " " ++ "-")]

/-- Modelled from the spec: `tempfile.NamedTemporaryFile` (stdlib, not under
src/) is an atomic temporary-file creation primitive. Its allocator picks a
name; the contract (`TempAllocator.Fresh`) only guarantees that the picked
name is not among the files currently existing in the directory. -/
structure TempAllocator where
  pick : List String → String

/-- The freshness-at-creation contract of the atomic temporary-file
primitive: the created name is never one that currently exists. -/
def TempAllocator.Fresh (alloc : TempAllocator) : Prop :=
  ∀ s, alloc.pick s ∉ s

/-- Modelled from the spec: creating a `NamedTemporaryFile` in a directory
whose current contents are `existing` returns the new file name and the
directory contents with that file present. -/
def NamedTemporaryFile (alloc : TempAllocator) (existing : List String) :
    String × List String :=
  (alloc.pick existing, alloc.pick existing :: existing)

/-- `unique_name` from src/gmt/figure.py: create a named temporary file in
the current directory, keep its base name, and close it — with
`delete=True` the close removes the file again, so the directory is left as
it was. -/
def unique_name (alloc : TempAllocator) (existing : List String) :
    String × List String :=
  match NamedTemporaryFile alloc existing with
  | (tmpname, existing2) => (tmpname, existing2.erase tmpname)

/-- A concrete allocator satisfying the primitive's freshness contract:
concatenate every existing name and append a character, producing a string
strictly longer than (hence different from) every existing one. -/
def padName (s : List String) : String :=
  String.mk (s.foldr (fun t acc => t.data ++ acc) ['x'])

/-- `launch_external_viewer` from src/gmt/figure.py: `xdg-open` on Linux and
`open` on OSX via `subprocess.run` with stdout and stderr sent to
`DEVNULL` and no `check=True`; the default browser elsewhere. -/
def launch_external_viewer (platform : Platform) (fname : String) :
    List Event :=
  match platform with
  | Platform.linux => [Event.runProcess ["xdg-open", fname] true true true false]
  | Platform.darwin => [Event.runProcess ["open", fname] true true true false]
  | Platform.other => [Event.openNewTab ("file://" ++ fname)]

/-- Opaque file contents: the bytes of the file at `path`, which this layer
reads but never inspects. -/
inductive PreviewData where
  | fileBytes (path : String)
deriving DecidableEq

/-- The value returned by `Figure._preview`: either the preview file name or
the loaded bytes of that file. -/
inductive PreviewResult where
  | fname (path : String)
  | bytes (ofFile : String)
deriving DecidableEq

/-- Model of `IPython.display.Image(data=..., width=...)`. -/
structure Image where
  data : PreviewData
  width : Nat
deriving DecidableEq

/-- Model of the HTML string returned by `Figure._repr_html_`: an `img` tag
holding the base64 encoding of the preview bytes and a fixed pixel width. -/
inductive Html where
  | imgTag (imageBase64 : PreviewData) (width : Nat)
deriving DecidableEq

/-- The state of a `Figure` object: its engine-visible name and the path of
its private temporary preview directory. -/
structure Figure where
  name : String
  preview_dir : String
deriving DecidableEq

/-- `Figure.__init__`: generate a unique name and create the scoped
temporary preview directory (`TemporaryDirectory`, stdlib: `mkTempDir`
abstracts the fresh directory path it allocates from the given name-derived
pattern; it lives in the system temp directory, not the working directory). -/
def Figure.init (alloc : TempAllocator) (existing : List String)
    (mkTempDir : String → String) : Figure × List String :=
  match unique_name alloc existing with
  | (name, existing2) =>
    ({ name := name, preview_dir := mkTempDir (name ++ "-preview-") }, existing2)

/-- `Figure._preprocess`: call the `figure` module before each plotting
command so that subsequent commands target this figure. -/
def Figure.preprocess (fig : Figure) : List Event :=
  figure fig.name

/-- First default-filling step of `Figure.psconvert`: add `A=''` (crop
enabled) when the `A` key is absent. -/
def psconvert_default_A (kwargs : Kwargs) : Kwargs :=
  if hasKey kwargs "A" then kwargs else kwargs ++ [("A", Val.str "")]

/-- Second default-filling step of `Figure.psconvert`: add `P=''` (portrait
enabled) when the `P` key is absent. -/
def psconvert_default_P (kwargs : Kwargs) : Kwargs :=
  if hasKey kwargs "P" then kwargs else kwargs ++ [("P", Val.str "")]

/-- The two default-filling steps at the top of `Figure.psconvert`:
add `A=''` (crop) when absent, then add `P=''` (portrait) when absent. -/
def psconvert_defaults (kwargs : Kwargs) : Kwargs :=
  psconvert_default_P (psconvert_default_A kwargs)

/-- The undecorated body of `Figure.psconvert`: preprocess (select this
figure), fill the crop and portrait defaults, then call the native
`psconvert` module with the serialized options. -/
def Figure.psconvert_body (fig : Figure) (kwargs : Kwargs) :
    Figure × List Event × Except String Unit :=
  (fig,
   Figure.preprocess fig
     ++ [Event.callModule "psconvert" (build_arg_string (psconvert_defaults kwargs))],
   Except.ok ())

/-- `Figure.psconvert` as callers see it: the body wrapped in the
`use_alias` and `kwargs_to_strings` decorators. -/
def Figure.psconvert (fig : Figure) (kwargs : Kwargs) :
    Figure × List Event × Except String Unit :=
  Figure.psconvert_body fig (remove_bools (use_alias kwargs))

/-- The fixed extension-to-format-code table of `Figure.savefig`:
`fmts = dict(png='g', pdf='f', jpg='j', bmp='b', eps='e', tif='t')`. -/
def fmts : List (String × String) :=
  [("png", "g"), ("pdf", "f"), ("jpg", "j"), ("bmp", "b"), ("eps", "e"), ("tif", "t")]

/-- `Figure.savefig`: validate the orientation, split the extension and look
up its format code, enforce that transparency is PNG-only (uppercasing the
code), then delegate to `Figure.psconvert`. Assert failures return
`Except.error` with an empty event trace, since they precede every native
call. -/
def Figure.savefig (fig : Figure) (fname orientation : String)
    (transparent crop : Bool) (kwargs : Kwargs) :
    Figure × List Event × Except String Unit :=
  if orientation = "portrait" ∨ orientation = "landscape" then
    match alookup (strTail (splitext fname).2) fmts with
    | none =>
      (fig, [], Except.error ("Unknown extension ." ++ strTail (splitext fname).2))
    | some fmt =>
      if transparent ∧ strTail (splitext fname).2 ≠ "png" then
        (fig, [],
         Except.error ("Transparency unavailable for " ++ strTail (splitext fname).2
           ++ ", only for png."))
      else
        Figure.psconvert fig
          ([("prefix", Val.str (splitext fname).1),
            ("fmt", Val.str (if transparent then strUpper fmt else fmt)),
            ("crop", Val.bool crop),
            ("portrait", Val.bool (orientation = "portrait"))] ++ kwargs)
  else (fig, [], Except.error ("Invalid orientation " ++ orientation))

/-- `Figure._preview`: build the savefig options (`dpi`, plus `Qg=4, Qt=4`
when anti-aliasing), save to `<preview-dir>/<name>.<fmt>`, and return the
file name or its loaded bytes. -/
def Figure.preview (fig : Figure) (fmt : String) (dpi : Int)
    (anti_alias as_bytes : Bool) :
    Figure × List Event × Except String PreviewResult :=
  match Figure.savefig fig (path_join fig.preview_dir (fig.name ++ "." ++ fmt))
      "portrait" false true
      ([("dpi", Val.int dpi)]
        ++ (if anti_alias then [("Qg", Val.int 4), ("Qt", Val.int 4)] else [])) with
  | (fig2, evts, Except.error e) => (fig2, evts, Except.error e)
  | (fig2, evts, Except.ok _) =>
    if as_bytes then
      (fig2, evts,
       Except.ok (PreviewResult.bytes (path_join fig.preview_dir (fig.name ++ "." ++ fmt))))
    else
      (fig2, evts,
       Except.ok (PreviewResult.fname (path_join fig.preview_dir (fig.name ++ "." ++ fmt))))

/-- `Figure.show`: with `external=True`, render a PDF preview at the literal
600 dpi with no anti-aliasing and launch the external viewer, returning
`None`; otherwise render a PNG preview at the requested dpi as bytes and
build the IPython display image (which fails when IPython is unavailable,
since then `Image` is `None` and calling it raises a `TypeError`). -/
def Figure.show_ (fig : Figure) (platform : Platform) (ipythonAvailable : Bool)
    (dpi : Int) (width : Nat) (external : Bool) :
    Figure × List Event × Except String (Option Image) :=
  if external then
    match Figure.preview fig "pdf" 600 false false with
    | (fig2, evts, Except.error e) => (fig2, evts, Except.error e)
    | (fig2, evts, Except.ok (PreviewResult.fname p)) =>
      (fig2, evts ++ launch_external_viewer platform p, Except.ok none)
    | (fig2, evts, Except.ok (PreviewResult.bytes _)) =>
      -- unreachable: the call above passes as_bytes=False
      (fig2, evts, Except.error "TypeError")
  else
    match Figure.preview fig "png" dpi true true with
    | (fig2, evts, Except.error e) => (fig2, evts, Except.error e)
    | (fig2, evts, Except.ok (PreviewResult.bytes p)) =>
      if ipythonAvailable then
        (fig2, evts, Except.ok (some { data := PreviewData.fileBytes p, width := width }))
      else (fig2, evts, Except.error "TypeError: NoneType object is not callable")
    | (fig2, evts, Except.ok (PreviewResult.fname _)) =>
      -- unreachable: the call above passes as_bytes=True
      (fig2, evts, Except.error "TypeError")

/-- `Figure._repr_png_`: a PNG preview at 70 dpi with anti-aliasing, loaded
as bytes. -/
def Figure.repr_png_ (fig : Figure) :
    Figure × List Event × Except String PreviewData :=
  match Figure.preview fig "png" 70 true true with
  | (fig2, evts, Except.error e) => (fig2, evts, Except.error e)
  | (fig2, evts, Except.ok (PreviewResult.bytes p)) =>
    (fig2, evts, Except.ok (PreviewData.fileBytes p))
  | (fig2, evts, Except.ok (PreviewResult.fname _)) =>
    -- unreachable: the call above passes as_bytes=True
    (fig2, evts, Except.error "TypeError")

/-- `Figure._repr_html_`: a PNG preview at 300 dpi with anti-aliasing,
base64-embedded in an `img` tag of width 500. -/
def Figure.repr_html_ (fig : Figure) :
    Figure × List Event × Except String Html :=
  match Figure.preview fig "png" 300 true true with
  | (fig2, evts, Except.error e) => (fig2, evts, Except.error e)
  | (fig2, evts, Except.ok (PreviewResult.bytes p)) =>
    (fig2, evts, Except.ok (Html.imgTag (PreviewData.fileBytes p) 500))
  | (fig2, evts, Except.ok (PreviewResult.fname _)) =>
    -- unreachable: the call above passes as_bytes=True
    (fig2, evts, Except.error "TypeError")

/-- A concrete figure used by the witness theorems. -/
def testFig : Figure :=
  { name := "gmtfig", preview_dir := "/tmp/previewdir" }

example : splitext "out.png" = ("out", ".png") := by decide

example : splitext "my-figure.tar.gz" = ("my-figure.tar", ".gz") := by decide

example : splitext ".bashrc" = (".bashrc", "") := by decide

example : splitext "/a/b.c/d" = ("/a/b.c/d", "") := by decide

example : splitext "a/../b." = ("a/../b", ".") := by decide

example : path_join "/tmp/x" "y.png" = "/tmp/x/y.png" := by decide

example : path_join "/tmp/x/" "y.png" = "/tmp/x/y.png" := by decide

example : path_join "" "y.png" = "y.png" := by decide

theorem data_append (a b : String) : (a ++ b).data = a.data ++ b.data := rfl

theorem mk_data (s : String) : String.mk s.data = s := rfl

theorem splitLast_eq_none {c : Char} {l : List Char} (h : c ∉ l) :
    splitLast c l = none := by
  induction l with
  | nil => rfl
  | cons x xs ih =>
    simp only [List.mem_cons, not_or] at h
    simp [splitLast, ih h.2, Ne.symm h.1]

theorem splitLast_concat {c : Char} (a b : List Char) (h : c ∉ b) :
    splitLast c (a ++ c :: b) = some (a, b) := by
  induction a with
  | nil => simp [splitLast, splitLast_eq_none h]
  | cons x xs ih => simp [splitLast, ih]

theorem any_ne_dot_of_not_mem {l : List Char} (h1 : l ≠ []) (h2 : '.' ∉ l) :
    l.any (fun ch => ch != '.') = true := by
  cases l with
  | nil => exact absurd rfl h1
  | cons x xs =>
    simp only [List.any_cons, Bool.or_eq_true, bne_iff_ne]
    exact Or.inl fun hx => h2 (hx ▸ List.mem_cons_self x xs)

theorem splitext_join (d name fmt : String) (hn : goodName name)
    (hf : goodName fmt) :
    splitext (path_join d (name ++ "." ++ fmt)) =
      (path_join d name, String.mk ('.' :: fmt.data)) := by
  obtain ⟨hne, hns, hnd⟩ := hn
  obtain ⟨hfe, hfs, hfd⟩ := hf
  obtain ⟨c, cs, hcons⟩ := List.exists_cons_of_ne_nil hne
  have hdata : (name ++ "." ++ fmt).data = name.data ++ '.' :: fmt.data := by
    simp [data_append]
  have hLs : '/' ∉ name.data ++ '.' :: fmt.data := by
    simp only [List.mem_append, List.mem_cons, not_or]
    exact ⟨hns, by decide, hfs⟩
  have hcne : c ≠ '/' := by
    intro h
    exact hns (h ▸ (hcons ▸ List.mem_cons_self c cs))
  have h1 : ¬((name ++ "." ++ fmt).data.head? = some '/') := by
    rw [hdata, hcons]
    simp only [List.cons_append, List.head?_cons, Option.some.injEq]
    exact hcne
  have h1r : ¬(name.data.head? = some '/') := by
    rw [hcons]
    simp only [List.head?_cons, Option.some.injEq]
    exact hcne
  have e2 : splitLast '.' (name.data ++ '.' :: fmt.data) = some (name.data, fmt.data) :=
    splitLast_concat _ _ hfd
  have hany : name.data.any (fun ch => ch != '.') = true :=
    any_ne_dot_of_not_mem hne hnd
  by_cases hd0 : d.data = []
  · rw [path_join, path_join, if_neg h1, if_pos hd0, if_neg h1r, if_pos hd0]
    have e1 : splitLast '/' (name ++ "." ++ fmt).data = none := by
      rw [hdata]; exact splitLast_eq_none hLs
    have e2' : splitLast '.' (name ++ "." ++ fmt).data = some (name.data, fmt.data) := by
      rw [hdata]; exact e2
    simp only [splitext, e1, e2', hany, if_true]
  · by_cases hdl : d.data.getLast? = some '/'
    · rw [path_join, path_join, if_neg h1, if_neg hd0, if_pos hdl,
        if_neg h1r, if_neg hd0, if_pos hdl]
      have hg : d.data.getLast hd0 = '/' := by
        have hq := List.getLast?_eq_getLast d.data hd0
        rw [hq] at hdl
        exact Option.some.inj hdl
      have hlast : d.data.dropLast ++ ['/'] = d.data := by
        calc d.data.dropLast ++ ['/']
            = d.data.dropLast ++ [d.data.getLast hd0] := by rw [hg]
          _ = d.data := List.dropLast_append_getLast hd0
      have e1core : splitLast '/' (d.data ++ (name.data ++ '.' :: fmt.data))
          = some (d.data.dropLast, name.data ++ '.' :: fmt.data) := by
        conv_lhs => rw [← hlast]
        rw [List.append_assoc, List.singleton_append]
        exact splitLast_concat _ _ hLs
      have e1 : splitLast '/' (String.mk (d.data ++ (name ++ "." ++ fmt).data)).data
          = some (d.data.dropLast, name.data ++ '.' :: fmt.data) := by
        show splitLast '/' (d.data ++ (name ++ "." ++ fmt).data) = _
        rw [hdata]
        exact e1core
      simp only [splitext, e1, e2, hany, if_true]
      have : d.data.dropLast ++ '/' :: name.data = d.data ++ name.data := by
        rw [← hlast]
        simp
      rw [this]
    · rw [path_join, path_join, if_neg h1, if_neg hd0, if_neg hdl,
        if_neg h1r, if_neg hd0, if_neg hdl]
      have e1 : splitLast '/' (String.mk (d.data ++ '/' :: (name ++ "." ++ fmt).data)).data
          = some (d.data, name.data ++ '.' :: fmt.data) := by
        show splitLast '/' (d.data ++ '/' :: (name ++ "." ++ fmt).data) = _
        rw [hdata]
        exact splitLast_concat _ _ hLs
      simp only [splitext, e1, e2, hany, if_true]

theorem alookup_append_some {β : Type} {k : String} {v : β}
    {l1 l2 : List (String × β)} (h : alookup k l1 = some v) :
    alookup k (l1 ++ l2) = some v := by
  induction l1 with
  | nil => exact absurd h (by simp [alookup])
  | cons p rest ih =>
    rcases p with ⟨k2, v2⟩
    by_cases hk : k = k2
    · simp only [alookup, if_pos hk] at h ⊢
      exact h
    · simp only [alookup, if_neg hk] at h ⊢
      exact ih h

theorem alookup_append_none {β : Type} {k : String}
    {l1 l2 : List (String × β)} (h : alookup k l1 = none) :
    alookup k (l1 ++ l2) = alookup k l2 := by
  induction l1 with
  | nil => rfl
  | cons p rest ih =>
    rcases p with ⟨k2, v2⟩
    by_cases hk : k = k2
    · simp only [alookup, if_pos hk] at h
      exact absurd h (by simp)
    · simp only [alookup, if_neg hk] at h ⊢
      exact ih h

theorem alookup_of_hasKey_false {kwargs : Kwargs} {k : String}
    (h : hasKey kwargs k = false) : alookup k kwargs = none := by
  unfold hasKey at h
  cases heq : alookup k kwargs with
  | none => rfl
  | some v => rw [heq] at h; simp at h

theorem hasKey_append_other {kwargs : Kwargs} {k a : String} {v : Val}
    (h : k ≠ a) : hasKey (kwargs ++ [(a, v)]) k = hasKey kwargs k := by
  unfold hasKey
  cases heq : alookup k kwargs with
  | none => rw [alookup_append_none heq]; simp [alookup, h]
  | some w => simp [alookup_append_some heq, heq]

theorem default_P_lookup {k : Kwargs} {key : String} {v : Val}
    (h : alookup key k = some v) :
    alookup key (psconvert_default_P k) = some v := by
  unfold psconvert_default_P
  by_cases hP : hasKey k "P" = true
  · rw [if_pos hP]; exact h
  · rw [if_neg hP]; exact alookup_append_some h

theorem defaults_A_of_absent (k : Kwargs) (h : hasKey k "A" = false) :
    alookup "A" (psconvert_defaults k) = some (Val.str "") := by
  unfold psconvert_defaults psconvert_default_A
  rw [if_neg (by simp [h])]
  refine default_P_lookup ?_
  rw [alookup_append_none (alookup_of_hasKey_false h)]
  simp [alookup]

theorem defaults_P_of_absent (k : Kwargs) (h : hasKey k "P" = false) :
    alookup "P" (psconvert_defaults k) = some (Val.str "") := by
  unfold psconvert_defaults psconvert_default_P psconvert_default_A
  by_cases hA : hasKey k "A" = true
  · rw [if_pos hA, if_neg (by simp [h])]
    rw [alookup_append_none (alookup_of_hasKey_false h)]
    simp [alookup]
  · rw [if_neg hA]
    have h2 : hasKey (k ++ [("A", Val.str "")]) "P" = false := by
      rw [hasKey_append_other (by decide)]; exact h
    rw [if_neg (by simp [h2])]
    rw [alookup_append_none (alookup_of_hasKey_false h2)]
    simp [alookup]

theorem defaults_preserve (k : Kwargs) (key : String) (v : Val)
    (h : alookup key k = some v) :
    alookup key (psconvert_defaults k) = some v := by
  unfold psconvert_defaults psconvert_default_A
  by_cases hA : hasKey k "A" = true
  · rw [if_pos hA]
    exact default_P_lookup h
  · rw [if_neg hA]
    exact default_P_lookup (alookup_append_some h)

theorem savefig_valid_eq (fig : Figure) (fname orientation : String)
    (transparent crop : Bool) (kwargs : Kwargs) (code : String)
    (ho : orientation = "portrait" ∨ orientation = "landscape")
    (hl : alookup (strTail (splitext fname).2) fmts = some code)
    (ht : transparent = true → strTail (splitext fname).2 = "png") :
    Figure.savefig fig fname orientation transparent crop kwargs =
      Figure.psconvert fig
        ([("prefix", Val.str (splitext fname).1),
          ("fmt", Val.str (if transparent then strUpper code else code)),
          ("crop", Val.bool crop),
          ("portrait", Val.bool (orientation = "portrait"))] ++ kwargs) := by
  unfold Figure.savefig
  rw [if_pos ho, hl]
  cases transparent with
  | false => simp
  | true =>
    dsimp only
    rw [if_neg (fun hcon => hcon.2 (ht rfl))]

theorem savefig_fst (fig : Figure) (fname orientation : String)
    (transparent crop : Bool) (kwargs : Kwargs) :
    (Figure.savefig fig fname orientation transparent crop kwargs).1 = fig := by
  unfold Figure.savefig Figure.psconvert Figure.psconvert_body
  split
  · split
    · rfl
    · split
      · rfl
      · rfl
  · rfl

theorem preview_fst (fig : Figure) (fmt : String) (dpi : Int)
    (anti_alias as_bytes : Bool) :
    (Figure.preview fig fmt dpi anti_alias as_bytes).1 = fig := by
  unfold Figure.preview
  split
  · rename_i f2 evts e heq
    have := savefig_fst fig (path_join fig.preview_dir (fig.name ++ "." ++ fmt))
      "portrait" false true
      ([("dpi", Val.int dpi)]
        ++ (if anti_alias then [("Qg", Val.int 4), ("Qt", Val.int 4)] else []))
    rw [heq] at this
    exact this
  · rename_i f2 evts u heq
    have := savefig_fst fig (path_join fig.preview_dir (fig.name ++ "." ++ fmt))
      "portrait" false true
      ([("dpi", Val.int dpi)]
        ++ (if anti_alias then [("Qg", Val.int 4), ("Qt", Val.int 4)] else []))
    rw [heq] at this
    split <;> exact this

theorem preview_ok (fig : Figure) (fmt : String) (dpi : Int) (aa : Bool)
    (hn : goodName fig.name) (hfmt : fmt = "png" ∨ fmt = "pdf") :
    ∃ tr, Figure.preview fig fmt dpi aa false
        = (fig, tr,
           Except.ok (PreviewResult.fname (path_join fig.preview_dir (fig.name ++ "." ++ fmt))))
      ∧ Figure.preview fig fmt dpi aa true
        = (fig, tr,
           Except.ok (PreviewResult.bytes (path_join fig.preview_dir (fig.name ++ "." ++ fmt)))) := by
  have hgf : goodName fmt := by rcases hfmt with h | h <;> subst h <;> decide
  have hsp := splitext_join fig.preview_dir fig.name fmt hn hgf
  have hst : strTail (splitext (path_join fig.preview_dir (fig.name ++ "." ++ fmt))).2 = fmt := by
    rw [hsp]
    exact mk_data fmt
  obtain ⟨code, hcode⟩ : ∃ code, alookup fmt fmts = some code := by
    rcases hfmt with h | h <;> subst h
    · exact ⟨"g", rfl⟩
    · exact ⟨"f", rfl⟩
  have hl : alookup
      (strTail (splitext (path_join fig.preview_dir (fig.name ++ "." ++ fmt))).2) fmts
      = some code := by
    rw [hst]; exact hcode
  have hsave := savefig_valid_eq fig
    (path_join fig.preview_dir (fig.name ++ "." ++ fmt)) "portrait" false true
    ([("dpi", Val.int dpi)]
      ++ (if aa then [("Qg", Val.int 4), ("Qt", Val.int 4)] else []))
    code (Or.inl rfl) hl (fun h => absurd h (by simp))
  refine ⟨(Figure.psconvert fig
      ([("prefix", Val.str (splitext (path_join fig.preview_dir (fig.name ++ "." ++ fmt))).1),
        ("fmt", Val.str (if false then strUpper code else code)),
        ("crop", Val.bool true),
        ("portrait", Val.bool ("portrait" = "portrait"))] ++
        ([("dpi", Val.int dpi)]
          ++ (if aa then [("Qg", Val.int 4), ("Qt", Val.int 4)] else [])))).2.1, ?_, ?_⟩
  · unfold Figure.preview
    rw [hsave]
    rfl
  · unfold Figure.preview
    rw [hsave]
    rfl

theorem show_fst (fig : Figure) (platform : Platform) (ipy : Bool)
    (dpi : Int) (width : Nat) (external : Bool) :
    (Figure.show_ fig platform ipy dpi width external).1 = fig := by
  unfold Figure.show_
  split
  · have h6 := preview_fst fig "pdf" 600 false false
    split <;> rename_i heq <;> rw [heq] at h6 <;> exact h6
  · have hp := preview_fst fig "png" dpi true true
    split <;> rename_i heq
    · rw [heq] at hp; exact hp
    · rw [heq] at hp
      split <;> exact hp
    · rw [heq] at hp; exact hp

theorem repr_png_fst (fig : Figure) : (Figure.repr_png_ fig).1 = fig := by
  unfold Figure.repr_png_
  have hp := preview_fst fig "png" 70 true true
  split <;> rename_i heq <;> rw [heq] at hp <;> exact hp

theorem repr_html_fst (fig : Figure) : (Figure.repr_html_ fig).1 = fig := by
  unfold Figure.repr_html_
  have hp := preview_fst fig "png" 300 true true
  split <;> rename_i heq <;> rw [heq] at hp <;> exact hp

theorem foldr_len_pos (s : List String) :
    0 < (s.foldr (fun t acc => t.data ++ acc) ['x']).length := by
  induction s with
  | nil => simp
  | cons a rest ih =>
    simp only [List.foldr_cons, List.length_append]
    omega

theorem mem_len_lt {s : List String} {t : String} (h : t ∈ s) :
    t.data.length < (s.foldr (fun t acc => t.data ++ acc) ['x']).length := by
  induction s with
  | nil => cases h
  | cons a rest ih =>
    rcases List.mem_cons.mp h with rfl | hmem
    · simp only [List.foldr_cons, List.length_append]
      have := foldr_len_pos rest
      omega
    · simp only [List.foldr_cons, List.length_append]
      have := ih hmem
      omega

theorem padName_fresh (s : List String) : padName s ∉ s := by
  intro h
  have hlt := mem_len_lt h
  have heq : (padName s).data.length
      = (s.foldr (fun t acc => t.data ++ acc) ['x']).length := rfl
  omega

/-- C1: for every call to `Figure.savefig`, if the output extension is not
one of png/pdf/jpg/bmp/eps/tif, or the orientation is not exactly
`portrait` or `landscape`, or `transparent=True` is requested for a non-png
extension, then savefig returns an invalid-argument error synchronously and
the event trace is empty: no native engine call (neither figure-select nor
convert) is made. -/
theorem savefig_invalid_argument_no_native_call :
    ∀ (fig : Figure) (fname orientation : String) (transparent crop : Bool)
      (kwargs : Kwargs),
    (alookup (strTail (splitext fname).2) fmts = none
      ∨ (orientation ≠ "portrait" ∧ orientation ≠ "landscape")
      ∨ (transparent = true ∧ strTail (splitext fname).2 ≠ "png")) →
    ∃ msg, Figure.savefig fig fname orientation transparent crop kwargs
        = (fig, [], Except.error msg) := by
  intro fig fname orientation transparent crop kwargs h
  unfold Figure.savefig
  by_cases ho : orientation = "portrait" ∨ orientation = "landscape"
  · rw [if_pos ho]
    rcases h with h1 | h2 | h3
    · rw [h1]
      exact ⟨_, rfl⟩
    · rcases ho with ho | ho
      · exact absurd ho h2.1
      · exact absurd ho h2.2
    · cases hret : alookup (strTail (splitext fname).2) fmts with
      | none => exact ⟨_, rfl⟩
      | some code =>
        dsimp only
        rw [if_pos h3]
        exact ⟨_, rfl⟩
  · rw [if_neg ho]
    exact ⟨_, rfl⟩

/-- Witness for C1: the three invalid-argument classes at concrete inputs
(unknown extension `.xyz`, orientation `sideways`, transparency with a pdf
extension) each produce an error with an empty trace. -/
theorem savefig_invalid_argument_no_native_call_witness :
    (∃ msg, Figure.savefig testFig "out.xyz" "portrait" false true []
        = (testFig, [], Except.error msg))
    ∧ (∃ msg, Figure.savefig testFig "out.png" "sideways" false true []
        = (testFig, [], Except.error msg))
    ∧ (∃ msg, Figure.savefig testFig "out.pdf" "portrait" true true []
        = (testFig, [], Except.error msg)) :=
  ⟨savefig_invalid_argument_no_native_call testFig "out.xyz" "portrait" false true []
      (Or.inl (by decide)),
   savefig_invalid_argument_no_native_call testFig "out.png" "sideways" false true []
      (Or.inr (Or.inl (by decide))),
   savefig_invalid_argument_no_native_call testFig "out.pdf" "portrait" true true []
      (Or.inr (Or.inr (by decide)))⟩

/-- C2: every invocation of `Figure.psconvert` produces exactly two native
calls: first the figure-select call with the figure's name and the sentinel
format argument `-`, then the convert call. -/
theorem psconvert_selects_figure_first :
    ∀ (fig : Figure) (kwargs : Kwargs), ∃ args,
    (Figure.psconvert fig kwargs).2.1
      = [Event.callModule "figure" (fig.name ++ " " ++ "-"),
         Event.callModule "psconvert" args] :=
  fun fig kwargs =>
    ⟨build_arg_string (psconvert_defaults (remove_bools (use_alias kwargs))), rfl⟩

/-- C3 counterexample: the claim says the spawned viewer child (`xdg-open`
on Linux) is not waited on, but the code invokes it through
`subprocess.run`, which blocks until the child exits (the third Boolean on
the `runProcess` event records this). At the concrete input `map.pdf` the
trace is a waiting `runProcess`, not the non-waiting one the claim
describes. -/
theorem launch_external_viewer_waits_counterexample :
    launch_external_viewer Platform.linux "map.pdf"
      = [Event.runProcess ["xdg-open", "map.pdf"] true true true false]
    ∧ launch_external_viewer Platform.linux "map.pdf"
      ≠ [Event.runProcess ["xdg-open", "map.pdf"] true true false false] := by
  decide

/-- C3 (amended): for every call to `launch_external_viewer`, the viewer
child process (`xdg-open` on Linux, `open` on macOS) has its stdout and
stderr redirected to the null device and its exit status is never checked
(no `check=True`, so a failing viewer raises nothing); however the layer
does wait for the command to terminate, since `subprocess.run` blocks until
the child exits. On other platforms the file URL is opened in the default
browser. -/
theorem launch_external_viewer_discards_output_never_checks_status :
    ∀ fname : String,
    launch_external_viewer Platform.linux fname
        = [Event.runProcess ["xdg-open", fname] true true true false]
      ∧ launch_external_viewer Platform.darwin fname
        = [Event.runProcess ["open", fname] true true true false]
      ∧ launch_external_viewer Platform.other fname
        = [Event.openNewTab ("file://" ++ fname)] :=
  fun _ => ⟨rfl, rfl, rfl⟩

/-- C4: with `transparent=True` and a `.png` file name, the format code
handed to the convert wrapper is the uppercased `G`; with `transparent=True`
and any other recognized extension, savefig errors out with an empty trace,
before any native engine call. -/
theorem savefig_transparent_png_uppercase_G :
    (∀ (fig : Figure) (fname orientation : String) (crop : Bool) (kwargs : Kwargs),
      (orientation = "portrait" ∨ orientation = "landscape") →
      strTail (splitext fname).2 = "png" →
      Figure.savefig fig fname orientation true crop kwargs
        = Figure.psconvert fig
            ([("prefix", Val.str (splitext fname).1),
              ("fmt", Val.str "G"),
              ("crop", Val.bool crop),
              ("portrait", Val.bool (orientation = "portrait"))] ++ kwargs))
    ∧ (∀ (fig : Figure) (fname orientation : String) (crop : Bool)
        (kwargs : Kwargs) (code : String),
      (orientation = "portrait" ∨ orientation = "landscape") →
      alookup (strTail (splitext fname).2) fmts = some code →
      strTail (splitext fname).2 ≠ "png" →
      ∃ msg, Figure.savefig fig fname orientation true crop kwargs
          = (fig, [], Except.error msg)) := by
  constructor
  · intro fig fname orientation crop kwargs ho hext
    have hl : alookup (strTail (splitext fname).2) fmts = some "g" := by
      rw [hext]; rfl
    have hh := savefig_valid_eq fig fname orientation true crop kwargs "g" ho hl
      (fun _ => hext)
    rw [hh]
    have hg : strUpper "g" = "G" := by decide
    simp [hg]
  · intro fig fname orientation crop kwargs code ho hl hne
    unfold Figure.savefig
    rw [if_pos ho, hl]
    dsimp only
    rw [if_pos ⟨rfl, hne⟩]
    exact ⟨_, rfl⟩

/-- Witness for C4: `savefig("out.png", transparent=True)` forwards format
code `G` to the convert wrapper; `savefig("out.pdf", transparent=True)`
errors with an empty trace. -/
theorem savefig_transparent_png_uppercase_G_witness :
    (Figure.savefig testFig "out.png" "portrait" true true []
      = Figure.psconvert testFig
          ([("prefix", Val.str (splitext "out.png").1),
            ("fmt", Val.str "G"),
            ("crop", Val.bool true),
            ("portrait", Val.bool ("portrait" = "portrait"))] ++ []))
    ∧ (∃ msg, Figure.savefig testFig "out.pdf" "portrait" true true []
        = (testFig, [], Except.error msg)) :=
  ⟨savefig_transparent_png_uppercase_G.1 testFig "out.png" "portrait" true []
      (Or.inl rfl) (by decide),
   savefig_transparent_png_uppercase_G.2 testFig "out.pdf" "portrait" true [] "f"
      (Or.inl rfl) (by decide) (by decide)⟩

/-- C5: savefig uses exactly the fixed 6-entry extension table
`png→g, pdf→f, jpg→j, bmp→b, eps→e, tif→t`, passes the file name stripped
of its extension as the output prefix, and forwards any additional keyword
options unmodified to the convert wrapper. -/
theorem savefig_fixed_table_and_passthrough :
    fmts = [("png", "g"), ("pdf", "f"), ("jpg", "j"),
            ("bmp", "b"), ("eps", "e"), ("tif", "t")]
    ∧ ∀ (fig : Figure) (fname orientation : String) (crop : Bool)
        (kwargs : Kwargs) (code : String),
      (orientation = "portrait" ∨ orientation = "landscape") →
      alookup (strTail (splitext fname).2) fmts = some code →
      Figure.savefig fig fname orientation false crop kwargs
        = Figure.psconvert fig
            ([("prefix", Val.str (splitext fname).1),
              ("fmt", Val.str code),
              ("crop", Val.bool crop),
              ("portrait", Val.bool (orientation = "portrait"))] ++ kwargs) := by
  refine ⟨rfl, ?_⟩
  intro fig fname orientation crop kwargs code ho hl
  have hh := savefig_valid_eq fig fname orientation false crop kwargs code ho hl
    (fun h => absurd h (by simp))
  rw [hh]
  rfl

/-- Witness for C5: `savefig("map.pdf", orientation="landscape")` with an
extra `I` option forwards prefix `map`, code `f` and the extra option to
the convert wrapper. -/
theorem savefig_fixed_table_and_passthrough_witness :
    Figure.savefig testFig "map.pdf" "landscape" false false [("I", Val.bool true)]
      = Figure.psconvert testFig
          ([("prefix", Val.str (splitext "map.pdf").1),
            ("fmt", Val.str "f"),
            ("crop", Val.bool false),
            ("portrait", Val.bool ("landscape" = "portrait"))] ++ [("I", Val.bool true)]) :=
  savefig_fixed_table_and_passthrough.2 testFig "map.pdf" "landscape" false
    [("I", Val.bool true)] "f" (Or.inr rfl) (by decide)

/-- C6: every `Figure.psconvert` call selects the figure and then issues
the native convert call with the serialized option mapping after default
filling; when the caller omits the `A` (crop) key it is added as `A=''`
(crop enabled), when the caller omits the `P` (portrait) key it is added as
`P=''` (portrait enabled), and caller-supplied `A` or `P` values survive
unchanged. -/
theorem psconvert_default_crop_portrait :
    ∀ (fig : Figure) (kwargs : Kwargs),
    Figure.psconvert fig kwargs
      = (fig,
         [Event.callModule "figure" (fig.name ++ " " ++ "-"),
          Event.callModule "psconvert"
            (build_arg_string (psconvert_defaults (remove_bools (use_alias kwargs))))],
         Except.ok ())
    ∧ (∀ k : Kwargs, hasKey k "A" = false →
        alookup "A" (psconvert_defaults k) = some (Val.str ""))
    ∧ (∀ k : Kwargs, hasKey k "P" = false →
        alookup "P" (psconvert_defaults k) = some (Val.str ""))
    ∧ (∀ (k : Kwargs) (v : Val), alookup "A" k = some v →
        alookup "A" (psconvert_defaults k) = some v)
    ∧ (∀ (k : Kwargs) (v : Val), alookup "P" k = some v →
        alookup "P" (psconvert_defaults k) = some v) :=
  fun fig kwargs =>
    ⟨rfl, defaults_A_of_absent, defaults_P_of_absent,
     fun k v => defaults_preserve k "A" v,
     fun k v => defaults_preserve k "P" v⟩

/-- Witness for C6: with no options, both defaults are filled; a
caller-supplied `A` value (`Au`, crop with time-stamp removal) is kept. -/
theorem psconvert_default_crop_portrait_witness :
    Figure.psconvert testFig []
      = (testFig,
         [Event.callModule "figure" (testFig.name ++ " " ++ "-"),
          Event.callModule "psconvert"
            (build_arg_string (psconvert_defaults (remove_bools (use_alias []))))],
         Except.ok ())
    ∧ alookup "A" (psconvert_defaults []) = some (Val.str "")
    ∧ alookup "P" (psconvert_defaults []) = some (Val.str "")
    ∧ alookup "A" (psconvert_defaults [("A", Val.str "u")]) = some (Val.str "u") :=
  ⟨(psconvert_default_crop_portrait testFig []).1,
   (psconvert_default_crop_portrait testFig []).2.1 [] rfl,
   (psconvert_default_crop_portrait testFig []).2.2.1 [] rfl,
   (psconvert_default_crop_portrait testFig []).2.2.2.1 [("A", Val.str "u")]
     (Val.str "u") rfl⟩

/-- C7 counterexample: the claim says two constructions of `Figure` in the
same process and directory always yield distinct names. The temporary file
that backs `unique_name` is deleted as soon as its name is extracted, so
the directory is unchanged between the two constructions; the atomic
temporary-file primitive only guarantees freshness against files that
currently exist. `padName` satisfies that contract (`Fresh`), yet under it
two successive `Figure` constructions yield the same name. -/
theorem unique_name_reuse_counterexample :
    (TempAllocator.mk padName).Fresh
    ∧ (Figure.init ⟨padName⟩ [] (fun p => p)).1.name
        = (Figure.init ⟨padName⟩ ((Figure.init ⟨padName⟩ [] (fun p => p)).2)
            (fun p => p)).1.name :=
  ⟨fun s => padName_fresh s, by decide⟩

/-- C7 (amended): every name generated by `unique_name` is distinct from
every file existing in the directory at the moment of generation, and the
temporary file is removed again before returning, leaving the directory
unchanged — so the primitive's contract guarantees freshness at generation
time only, not distinctness across repeated constructions. -/
theorem unique_name_fresh_at_generation :
    ∀ (alloc : TempAllocator) (existing : List String)
      (mkTempDir : String → String),
    alloc.Fresh →
    (unique_name alloc existing).1 ∉ existing
    ∧ (unique_name alloc existing).2 = existing
    ∧ (Figure.init alloc existing mkTempDir).1.name ∉ existing := by
  intro alloc existing mkTempDir h
  have h2 : (unique_name alloc existing).2 = existing := by
    show (alloc.pick existing :: existing).erase (alloc.pick existing) = existing
    rw [List.erase_cons_head]
  exact ⟨h existing, h2, h existing⟩

/-- Witness for C7 (amended): the `padName` allocator meets the freshness
contract, and in a directory holding one file the generated name avoids it
and the directory is left unchanged. -/
theorem unique_name_fresh_at_generation_witness :
    (TempAllocator.mk padName).Fresh
    ∧ (unique_name ⟨padName⟩ ["gmt-one"]).1 ∉ ["gmt-one"]
    ∧ (unique_name ⟨padName⟩ ["gmt-one"]).2 = ["gmt-one"] :=
  ⟨fun s => padName_fresh s,
   (unique_name_fresh_at_generation ⟨padName⟩ ["gmt-one"] (fun p => p)
      (fun s => padName_fresh s)).1,
   (unique_name_fresh_at_generation ⟨padName⟩ ["gmt-one"] (fun p => p)
      (fun s => padName_fresh s)).2.1⟩

/-- C8: for a preview of format `png` or `pdf`, the preview file path is
the deterministic `<preview-dir>/<figure-name>.<fmt>`, both when the path
and when the loaded bytes are returned; the path does not depend on the
dpi or anti-aliasing arguments, so two successive previews of the same
format on the same figure use the same path (and the later native convert
therefore overwrites the earlier file). -/
theorem preview_deterministic_path :
    ∀ (fig : Figure) (fmt : String) (dpi dpi2 : Int) (aa aa2 : Bool),
    goodName fig.name → (fmt = "png" ∨ fmt = "pdf") →
    (Figure.preview fig fmt dpi aa false).2.2
        = Except.ok (PreviewResult.fname
            (path_join fig.preview_dir (fig.name ++ "." ++ fmt)))
    ∧ (Figure.preview fig fmt dpi aa true).2.2
        = Except.ok (PreviewResult.bytes
            (path_join fig.preview_dir (fig.name ++ "." ++ fmt)))
    ∧ (Figure.preview fig fmt dpi aa false).2.2
        = (Figure.preview fig fmt dpi2 aa2 false).2.2 := by
  intro fig fmt dpi dpi2 aa aa2 hn hf
  obtain ⟨tr, h1, h2⟩ := preview_ok fig fmt dpi aa hn hf
  obtain ⟨tr2, h12, h22⟩ := preview_ok fig fmt dpi2 aa2 hn hf
  exact ⟨by rw [h1], by rw [h2], by rw [h1, h12]⟩

/-- Witness for C8: on a concrete figure, a png preview at 70 dpi and one
at 300 dpi use the same deterministic path. -/
theorem preview_deterministic_path_witness :
    (Figure.preview testFig "png" 70 true false).2.2
        = Except.ok (PreviewResult.fname
            (path_join testFig.preview_dir (testFig.name ++ "." ++ "png")))
    ∧ (Figure.preview testFig "png" 70 true true).2.2
        = Except.ok (PreviewResult.bytes
            (path_join testFig.preview_dir (testFig.name ++ "." ++ "png")))
    ∧ (Figure.preview testFig "png" 70 true false).2.2
        = (Figure.preview testFig "png" 300 false false).2.2 :=
  preview_deterministic_path testFig "png" 70 300 true false (by decide)
    (Or.inl rfl)

/-- C9: the figure's engine-visible name is fixed at construction: every
operation returns the object with its name unchanged. -/
theorem figure_name_immutable :
    ∀ (fig : Figure) (kwargs : Kwargs) (fname orientation : String)
      (transparent crop : Bool) (platform : Platform) (ipy : Bool)
      (dpi : Int) (width : Nat) (external : Bool) (fmt : String) (aa ab : Bool),
    (Figure.psconvert fig kwargs).1.name = fig.name
    ∧ (Figure.savefig fig fname orientation transparent crop kwargs).1.name = fig.name
    ∧ (Figure.preview fig fmt dpi aa ab).1.name = fig.name
    ∧ (Figure.show_ fig platform ipy dpi width external).1.name = fig.name
    ∧ (Figure.repr_png_ fig).1.name = fig.name
    ∧ (Figure.repr_html_ fig).1.name = fig.name := by
  intro fig kwargs fname orientation transparent crop platform ipy dpi width
    external fmt aa ab
  refine ⟨rfl, ?_, ?_, ?_, ?_, ?_⟩
  · rw [savefig_fst]
  · rw [preview_fst]
  · rw [show_fst]
  · rw [repr_png_fst]
  · rw [repr_html_fst]

/-- C10: `show` with `external=True` ignores the dpi and width arguments
entirely (the call is literally identical for any values), renders the PDF
preview at the fixed 600 dpi (its trace is that of the 600-dpi PDF preview
followed by the viewer launch) and returns `None`; the embedded path
(`external=False`) renders the PNG preview at the requested dpi and, when
IPython is available, returns the display image object of the requested
width. -/
theorem show_external_fixed_600dpi_returns_none :
    ∀ (fig : Figure) (platform : Platform) (ipy : Bool)
      (dpi dpi2 : Int) (width width2 : Nat),
    Figure.show_ fig platform ipy dpi width true
      = Figure.show_ fig platform ipy dpi2 width2 true
    ∧ (goodName fig.name →
        (Figure.show_ fig platform ipy dpi width true).2.2 = Except.ok none
        ∧ (Figure.show_ fig platform ipy dpi width true).2.1
            = (Figure.preview fig "pdf" 600 false false).2.1
              ++ launch_external_viewer platform
                  (path_join fig.preview_dir (fig.name ++ "." ++ "pdf"))
        ∧ (Figure.show_ fig platform ipy dpi width false).2.1
            = (Figure.preview fig "png" dpi true true).2.1
        ∧ (ipy = true →
            (Figure.show_ fig platform ipy dpi width false).2.2
              = Except.ok (some
                  { data := PreviewData.fileBytes
                      (path_join fig.preview_dir (fig.name ++ "." ++ "png")),
                    width := width }))) := by
  intro fig platform ipy dpi dpi2 width width2
  constructor
  · simp only [Figure.show_, eq_self_iff_true, if_true]
  · intro hn
    obtain ⟨trp, hp1, hp2⟩ := preview_ok fig "pdf" 600 false hn (Or.inr rfl)
    obtain ⟨trg, hg1, hg2⟩ := preview_ok fig "png" dpi true hn (Or.inl rfl)
    refine ⟨?_, ?_, ?_, ?_⟩
    · unfold Figure.show_
      rw [hp1]
      rfl
    · unfold Figure.show_
      rw [hp1]
      rfl
    · unfold Figure.show_
      rw [hg2]
      cases ipy <;> rfl
    · intro hipy
      subst hipy
      unfold Figure.show_
      rw [hg2]
      rfl

/-- Witness for C10: on a concrete figure with IPython available,
`show(external=True)` returns `None` and `show(external=False)` returns the
image object of the requested width. -/
theorem show_external_fixed_600dpi_returns_none_witness :
    (Figure.show_ testFig Platform.linux true 300 500 true).2.2 = Except.ok none
    ∧ (Figure.show_ testFig Platform.linux true 300 500 false).2.2
        = Except.ok (some
            { data := PreviewData.fileBytes
                (path_join testFig.preview_dir (testFig.name ++ "." ++ "png")),
              width := 500 }) :=
  ⟨((show_external_fixed_600dpi_returns_none testFig Platform.linux true 300 42 500 43).2
      (by decide)).1,
   ((show_external_fixed_600dpi_returns_none testFig Platform.linux true 300 42 500 43).2
      (by decide)).2.2.2 rfl⟩

end GmtPython
